import Mathlib

/-!
Verification of the pyface DockSizer layout engine
(src/enthought/pyface/dock/dock_sizer.py).

The definitions below are shallow embeddings of the functions of
`dock_sizer.py`.  Machine integers of the Python source are modelled as
`Int`; Python 2 floor division by a positive constant is Lean's `Int`
division `/` (Euclidean division, which agrees with floor division for a
positive divisor); Python 2 `round` (half away from zero) is `pyRound`;
code that can raise `IndexError` / `ValueError` / `TypeError` is modelled
with `Option` (`none` = the exception escapes).
-/

/-- Constant `MaxTabLength` of dock_sizer.py (line 50): maximum allowed
length of a tab label. -/
def MaxTabLength : Nat := 30

/-- Constant `DragBarSize` (line 53). -/
def DragBarSize : Int := 14

/-- Constant `TabHeight` (line 60). -/
def TabHeight : Int := 26

/-- Constant `SplitterSizeH` (line 78): thickness of a horizontal splitter
bar, used between the children of a column section. -/
def SplitterSizeH : Int := 9

/-- Constant `SplitterSizeV` (line 79): thickness of a vertical splitter
bar, used between the children of a row section. -/
def SplitterSizeV : Int := 12

/-- Drop info kind constants (lines 117-126). -/
def DOCK_TOP : Nat := 0

/-- Drop info kind `DOCK_BOTTOM`. -/
def DOCK_BOTTOM : Nat := 1

/-- Drop info kind `DOCK_LEFT`. -/
def DOCK_LEFT : Nat := 2

/-- Drop info kind `DOCK_RIGHT`. -/
def DOCK_RIGHT : Nat := 3

/-- Drop info kind `DOCK_TAB`. -/
def DOCK_TAB : Nat := 4

/-- Drop info kind `DOCK_SPLITTER`. -/
def DOCK_SPLITTER : Nat := 8

/-- Drop info kind `DOCK_EXPORT`. -/
def DOCK_EXPORT : Nat := 9

/-- Python 2 `int(round(float(num) / den))` for integers `num` and a
positive integer `den`: rounding half away from zero.  For `num ≥ 0` this
is `⌊(2*num + den) / (2*den)⌋`, and the negative case mirrors it. -/
def pyRound (num den : Int) : Int :=
  if 0 ≤ num then (2 * num + den) / (2 * den)
  else -((2 * (-num) + den) / (2 * den))

/-- The allocation loop of `DockSection.recalc_sizes` (lines 2856-2864 for
a row, 2890-2898 for a column): every child except the last receives
`round(size * delta / cdx)` extra space, the last child receives whatever
is left in `remaining`.  The returned list holds the extent passed to each
child's own `recalc_sizes` call (`idx + item.width`). -/
def alloc (delta cdx : Int) : List Int → Int → List Int
  | [], _ => []
  | [w], remaining => [remaining + w]
  | w :: w' :: ws, remaining =>
      let idx := pyRound (w * delta) cdx
      (idx + w) :: alloc delta cdx (w' :: ws) (remaining - idx)

/-- The horizontal branch of `DockSection.recalc_sizes` (lines 2842-2873),
restricted to the extents assigned along the primary axis: given the
current widths of the visible children and the target width `dx`
(`self.width = dx = max(0, dx)` at line 2828), returns the width passed to
each visible child.  `cdx = max(1, sum of current widths)` is line 2849,
`delta = remaining = dx - n*SplitterSizeV - cdx` is lines 2843/2852. -/
def DockSection.recalc_row (widths : List Int) (dx : Int) : List Int :=
  alloc (max 0 dx - ((widths.length : Int) - 1) * SplitterSizeV
          - max 1 widths.sum)
        (max 1 widths.sum) widths
        (max 0 dx - ((widths.length : Int) - 1) * SplitterSizeV
          - max 1 widths.sum)

/-- The vertical branch of `DockSection.recalc_sizes` (lines 2876-2906):
identical to the horizontal branch with heights and `SplitterSizeH`. -/
def DockSection.recalc_col (heights : List Int) (dy : Int) : List Int :=
  alloc (max 0 dy - ((heights.length : Int) - 1) * SplitterSizeH
          - max 1 heights.sum)
        (max 1 heights.sum) heights
        (max 0 dy - ((heights.length : Int) - 1) * SplitterSizeH
          - max 1 heights.sum)

/-- The `tab_name` property of `DockItem` (`_get_tab_name`, lines 407-414):
names longer than `MaxTabLength` are truncated to
`name[:MaxTabLength - 23] + "..." + name[-20:]`.  Strings are modelled as
lists of characters. -/
def DockItem.tab_name (name : List Char) : List Char :=
  if MaxTabLength < name.length then
    name.take (MaxTabLength - 23) ++ ['.', '.', '.'] ++
      name.drop (name.length - 20)
  else
    name

/-- `DockItem.is_at` (lines 471-477): point-in-rectangle test against an
explicitly supplied `bounds` rectangle `(bx, by, bdx, bdy)`. -/
def DockItem.is_at (x y : Int) (bounds : Int × Int × Int × Int) : Bool :=
  ((bounds.1 ≤ x && x < bounds.1 + bounds.2.2.1) &&
   (bounds.2.1 ≤ y && y < bounds.2.1 + bounds.2.2.2))

/-- The edge-resolution tail of `DockSection.dock_info_at` (lines
3031-3070), reached when the caller passed `force = True` and neither the
drag bar (line 3015), nor a splitter (lines 3022-3024), nor any visible
child (lines 3026-3029) produced a DockInfo.  `(lx, ty, dx, dy)` is
`self.bounds` and `(mdx0, mdy0)` are the first two components of `size`.
Returns the kind together with the preview bounds; the `DOCK_EXPORT`
branch keeps the default bounds (0, 0, 0, 0). -/
def DockSection.edge_dock_info (lx ty dx dy x y mdx0 mdy0 : Int) :
    Nat × (Int × Int × Int × Int) :=
  let left := lx - x
  let right := x - lx - dx + 1
  let top := ty - y
  let bottom := y - ty - dy + 1
  if 20 < max (max left right) (max top bottom) then
    (DOCK_EXPORT, (0, 0, 0, 0))
  else
    let l := abs left
    let r := abs right
    let t := abs top
    let b := abs bottom
    let choice := min (min (min l r) t) b
    let mdx := min mdx0 ((2 * dx) / 3)
    let mdy := min mdy0 ((2 * dy) / 3)
    if choice = l then (DOCK_LEFT, (lx, ty, mdx, dy))
    else if choice = r then (DOCK_RIGHT, (lx + dx - mdx, ty, mdx, dy))
    else if choice = t then (DOCK_TOP, (lx, ty, dx, mdy))
    else (DOCK_BOTTOM, (lx, ty + dy - mdy, dx, mdy))

/-- The dock item tree: a `DockControl` leaf (tagged by an id), a
`DockRegion` (tab group) with its `active` index, or a `DockSection`
(row/column).  `sect` stands for the source's `DockSection`, whose name is
a Lean keyword. -/
inductive DItem where
  | ctrl (id : Nat)
  | region (active : Int) (contents : List DItem)
  | sect (is_row : Bool) (contents : List DItem)

/-- A parent group in a zipper over the tree: the group's own data plus
the siblings before and after the child currently being processed.  The
frame list plays the role of the `parent` back-pointers of the source
(`DockItem.parent`, line 360). -/
inductive Frame where
  | region (active : Int) (pre post : List DItem)
  | sect (is_row : Bool) (pre post : List DItem)

/-- The source test `isinstance(item, DockGroup) and len(item.contents)
== 1` used by both `remove` methods (lines 2245 and 3123). -/
def DItem.one_child : DItem → Bool
  | .region _ [_] => true
  | .sect _ [_] => true
  | _ => false

/-- The source test `isinstance(self.parent, DockRegion)` (line 2260). -/
def Frame.is_region : Frame → Bool
  | .region _ _ _ => true
  | .sect _ _ _ => false

/-- The contents update of `DockSection.remove` (lines 3122-3126): a group
child with exactly one grandchild is replaced in place by that grandchild;
any other child is deleted. -/
def DockSection.removeStep (pre post : List DItem) (item : DItem) :
    List DItem :=
  match item with
  | .region _ [c] => pre ++ [c] ++ post
  | .sect _ [c] => pre ++ [c] ++ post
  | _ => pre ++ post

/-- The contents update of `DockRegion.remove` (lines 2242-2254): a group
child with exactly one grandchild is replaced by it (splicing the
grandchild's contents when it is itself a `DockRegion`); otherwise the
child is deleted and `active` is decremented when it pointed past the
deletion point (`if (self.active > i) or (self.active >= len(contents))`,
line 2253). -/
def DockRegion.removeStep (active : Int) (pre post : List DItem)
    (item : DItem) : List DItem × Int :=
  match item with
  | .region _ [.region _ cs] => (pre ++ cs ++ post, active)
  | .region _ [c] => (pre ++ [c] ++ post, active)
  | .sect _ [.region _ cs] => (pre ++ cs ++ post, active)
  | .sect _ [c] => (pre ++ [c] ++ post, active)
  | _ =>
      (pre ++ post,
       if (pre.length : Int) < active ∨
          ((pre.length : Int) + post.length) ≤ active
       then active - 1 else active)

/-- Rebuilds the tree from a zipper: plugs an item back into its stack of
parent frames. -/
def plug : List Frame → DItem → DItem
  | [], item => item
  | .region a pre post :: fs, item =>
      plug fs (.region a (pre ++ [item] ++ post))
  | .sect r pre post :: fs, item =>
      plug fs (.sect r (pre ++ [item] ++ post))

/-- The upward `remove` cascade: `removeCascade hasWindow frames parent
item` performs `parent.remove(item)` where `parent` sits under the stack
`frames`.  A section with at most one child left asks its own parent to
remove it (lines 3128-3130); a root section with no children left
notifies the dock window when one is attached (lines 3131-3132, `hasWindow`
models `self.dock_window is not None`); a region asks its parent when it
becomes empty, or when one child is left and the parent is itself a
region (lines 2256-2261).  Returns the rebuilt tree and whether
`dock_window_empty` was called. -/
def removeCascade (hasWindow : Bool) :
    List Frame → Frame → DItem → DItem × Bool
  | [], .sect is_row pre post, item =>
      let cs := DockSection.removeStep pre post item
      (.sect is_row cs, decide (cs.length = 0) && hasWindow)
  | f :: fs, .sect is_row pre post, item =>
      let cs := DockSection.removeStep pre post item
      if cs.length ≤ 1 then removeCascade hasWindow fs f (.sect is_row cs)
      else (plug (f :: fs) (.sect is_row cs), false)
  | [], .region active pre post, item =>
      let r := DockRegion.removeStep active pre post item
      (.region r.2 r.1, false)
  | f :: fs, .region active pre post, item =>
      let r := DockRegion.removeStep active pre post item
      if r.1.length = 0 then removeCascade hasWindow fs f (.region r.2 r.1)
      else if r.1.length = 1 ∧ f.is_region then
        removeCascade hasWindow fs f (.region r.2 r.1)
      else (plug (f :: fs) (.region r.2 r.1), false)

/-- Python's `list.index(x)` (used at lines 2228, 2230, 2243, 2435):
index of the first occurrence, `none` when absent (`ValueError`). -/
def pyListIndex {α : Type} [DecidableEq α] : List α → α → Option Nat
  | [], _ => none
  | c :: cs, x => if c = x then some 0 else (pyListIndex cs x).map (· + 1)

/-- Python's `l[i]` for a possibly negative index `i` (negative indices
count from the end; out of range is an `IndexError`). -/
def pyIndex {α : Type} (l : List α) (i : Int) : Option α :=
  if 0 ≤ i then l.get? i.toNat
  else if 0 ≤ i + l.length then l.get? (i + l.length).toNat
  else none

/-- The index computation of `DockRegion.add` (lines 2224-2230):
`before` wins over `after`; with neither, the control is appended. -/
def add_index {α : Type} [DecidableEq α] (cs : List α)
    (before after : Option α) : Option Nat :=
  match before with
  | some b => pyListIndex cs b
  | none =>
      match after with
      | some a => (pyListIndex cs a).map (· + 1)
      | none => some cs.length

/-- `DockRegion.add` (lines 2218-2233): when the control's parent is
already this region (`parentIsSelf`, modelling `control.parent is self`)
the control is first removed from `contents`; the control is then
inserted at the position determined by `before`/`after` and, when
`activate` is set, `active` becomes that position. -/
def DockRegion.add {α : Type} [DecidableEq α] (parentIsSelf : Bool)
    (contents : List α) (active : Int) (control : α)
    (before after : Option α) (activate : Bool) : Option (List α × Int) :=
  match (if parentIsSelf then
           (if control ∈ contents then some (contents.erase control)
            else none)
         else some contents) with
  | none => none
  | some cs =>
      match add_index cs before after with
      | none => none
      | some i =>
          some (cs.insertIdx i control,
                if activate then (i : Int) else active)

/-- `DockRegion.tab_clicked` (lines 2431-2443): looks up the clicked
control's index in `contents` and makes it the active tab (when it is
already active, `active` keeps the same value, so the result is the
index in both cases). -/
def DockRegion.tab_clicked {α : Type} [DecidableEq α] (contents : List α)
    (control : α) : Option Nat :=
  pyListIndex contents control

/-- The ascending half of the Python 2 index list
`range(active, len(contents))` of `_update_active` (line 2629). -/
def intsFrom (a : Int) : Nat → List Int
  | 0 => []
  | n + 1 => a :: intsFrom (a + 1) n

/-- The descending half `range(active - 1, -1, -1)` (line 2630). -/
def intsDown (a : Int) : Nat → List Int
  | 0 => []
  | n + 1 => a :: intsDown (a - 1) n

/-- `range(a, b)` over `Int` (empty when `b ≤ a`). -/
def intRange (a b : Int) : List Int := intsFrom a (b - a).toNat

/-- `range(a, -1, -1)` over `Int`: `a, a-1, ..., 0` (empty for `a < 0`). -/
def intRangeDown (a : Int) : List Int := intsDown a (a + 1).toNat

/-- The scan loop of `DockRegion._update_active` (lines 2628-2635): the
first index in the list whose child is visible becomes the new `active`;
if none is visible, `active` becomes -1.  An out-of-range index access is
an `IndexError` (`none`). -/
def findActive {α : Type} (vis : α → Bool) (contents : List α) :
    List Int → Option Int
  | [] => some (-1)
  | i :: rest =>
      (pyIndex contents i).bind
        (fun c => if vis c then some i else findActive vis contents rest)

/-- `DockRegion._update_active` (lines 2622-2635) with `active = None`:
scans `contents[active:]` and then `contents[active-1::-1]` for the first
visible child.  `vis` models the child's `visible` trait. -/
def DockRegion.update_active {α : Type} (vis : α → Bool)
    (contents : List α) (active : Int) : Option Int :=
  findActive vis contents
    (intRange active contents.length ++ intRangeDown (active - 1))

/-- `DockRegion._set_visibility` (lines 2687-2692): child `i` is shown
exactly when `i == active`. -/
def DockRegion.set_visibility_flags (n : Nat) (active : Int) : List Bool :=
  (List.range n).map (fun (i : Nat) => decide ((i : Int) = active))

/-- The well-formedness used by the remove invariant: when the removed
item is a group with a single region grandchild (the splice case of
lines 2247-2248), that region is not empty.  In a well-formed tree every
group is nonempty, so this always holds. -/
def DItem.splice_safe : DItem → Bool
  | .region _ [.region _ cs] => !cs.isEmpty
  | .sect _ [.region _ cs] => !cs.isEmpty
  | _ => true

/-- Notebook margin and padding constants (lines 71-75). -/
def NBMarginLeft : Int := 7

/-- Constant `NBMarginRight` (line 72). -/
def NBMarginRight : Int := 9

/-- Constant `NBMarginTop` (line 73). -/
def NBMarginTop : Int := 3

/-- Constant `NBMarginBottom` (line 74). -/
def NBMarginBottom : Int := 9

/-- Constant `NBPadding` (line 75). -/
def NBPadding : Int := 4

/-- The `DockStyle` trait (line 183): drag bar/tab style of a control. -/
inductive DockStyle where
  | horizontal
  | vertical
  | tab
  | fixed
  deriving DecidableEq

/-- The data of a region child that `DockRegion.recalc_sizes` reads: its
`visible`, `locked` and `style` traits and its `tab_width` property
(which depends on the toolkit's text measurement and is therefore an
input here). -/
structure RegionChild where
  visible : Bool
  locked : Bool
  style : DockStyle
  tab_width : Int

/-- `DockItem.set_drag_bounds` (lines 493-498): the stored drag rectangle
is clipped so it does not extend past the item's own `bounds`. -/
def DockItem.set_drag_bounds (bounds : Int × Int × Int × Int)
    (x y dx dy : Int) : Int × Int × Int × Int :=
  (x, y, min (x + dx) (bounds.1 + bounds.2.2.1) - x,
   min (y + dy) (bounds.2.1 + bounds.2.2.2) - y)

/-- The `is_notebook` property (`_get_is_notebook`, lines 2706-2714):
more than one visible child, or exactly one whose style is `tab`. -/
def DockRegion.is_notebook (contents : List RegionChild) : Bool :=
  match contents.filter (fun c => c.visible) with
  | [] => false
  | [c] => c.style = DockStyle.tab
  | _ :: _ :: _ => true

/-- The notebook child loop of `DockRegion.recalc_sizes` (lines
2150-2154): each visible child gets the content-area bounds (each child's
own `recalc_sizes` clamps its extents to ≥ 0), and its tab rectangle is
placed at the running `tx` with a 1 pixel overlap.  Returns (bounds,
drag_bounds) pairs. -/
def nbChildLoop (x iy dx dy y : Int) :
    List RegionChild → Int →
      List ((Int × Int × Int × Int) × (Int × Int × Int × Int))
  | [], _ => []
  | c :: cs, tx =>
      let cb := (x, iy, max 0 dx, max 0 dy)
      let db := DockItem.set_drag_bounds cb tx y c.tab_width TabHeight
      (cb, db) :: nbChildLoop x iy dx dy y cs (tx + c.tab_width - 1)

/-- The `max_tab` scan of `DockRegion.recalc_sizes` (lines 2164-2171):
walk the tabs from the last one backwards, subtracting widths from `xr`,
until the remaining tabs no longer fit; without a break `max_tab` keeps
the initial value 1. -/
def maxTabLoop (tx0 n : Int) : List (Int × Int) → Int → Int
  | [], _ => 1
  | (i, tw) :: rest, xr =>
      let xr' := xr - (tw - 1)
      if xr' < tx0 then min (i + 1) n else maxTabLoop tx0 n rest xr'

/-- The state written by `DockRegion.recalc_sizes`: the bounds and drag
bounds assigned to the visible children, and the notebook bookkeeping
fields (`none` = the source leaves the field untouched in this
branch). -/
structure RegionLayout where
  child_bounds : List (Int × Int × Int × Int)
  drag_bounds : List (Int × Int × Int × Int)
  tab_clip : Option (Int × Int × Int × Int)
  drag_bar : Option (Int × Int × Int × Int)
  left_tab : Int
  max_tab : Option Int
  tab_scroll_index : Option Int

/-- `DockRegion.recalc_sizes` (lines 2135-2212).  In notebook mode the
children are laid out under a tab row, with tab scrolling activated when
the tabs overflow (`scroller_dx` models the external scroll-button bitmap
width `DockImages._tab_scroller_dx`); otherwise the single visible child
is laid out beside/below its drag bar — and an empty region raises
`IndexError` at `contents[0]` (line 2196), returning `none` here. -/
def DockRegion.recalc_sizes (contents : List RegionChild)
    (x y dx dy left_tab0 scroller_dx : Int) : Option RegionLayout :=
  let dx0 := max 0 dx
  let dy0 := max 0 dy
  let vc := contents.filter (fun c => c.visible)
  if DockRegion.is_notebook contents then
    let x1 := x + NBMarginLeft
    let tx0 := x1 - NBPadding
    let dx1 := dx0 - (NBMarginLeft + NBMarginRight)
    let iy := y + TabHeight + NBMarginTop
    let dy1 := dy0 - (TabHeight + NBMarginTop + NBMarginBottom)
    let pairs := nbChildLoop x1 iy dx1 dy1 y vc tx0
    let tx := tx0 + ((vc.map (fun c => c.tab_width - 1)).sum)
    let cdx := dx1 + 2 * NBPadding + 1
    let xr := tx0 + cdx
    if tx + 2 ≥ xr then
      let n := (vc.length : Int) - 1
      let desc := (vc.map (fun c => c.tab_width)).enum.reverse.map
        (fun p => ((p.1 : Int), p.2))
      let mt := maxTabLoop tx0 n desc (xr - scroller_dx)
      let lt := min left_tab0 mt
      let tsi := (if lt < mt then (1 : Int) else 0) +
                 2 * (if 0 < lt then (1 : Int) else 0) - 1
      if 0 < lt then
        match pyIndex (pairs.zip vc) lt with
        | none => none
        | some p =>
            let adx := p.1.2.1 - tx0
            some { child_bounds := pairs.map (fun q => q.1),
                   drag_bounds := (pairs.zip vc).map (fun q =>
                     DockItem.set_drag_bounds q.1.1 (q.1.2.1 - adx)
                       q.1.2.2.1 q.2.tab_width q.1.2.2.2.2),
                   tab_clip := some (tx0, y, cdx - scroller_dx, TabHeight),
                   drag_bar := none, left_tab := lt, max_tab := some mt,
                   tab_scroll_index := some tsi }
      else
        some { child_bounds := pairs.map (fun q => q.1),
               drag_bounds := pairs.map (fun q => q.2),
               tab_clip := some (tx0, y, cdx - scroller_dx, TabHeight),
               drag_bar := none, left_tab := lt, max_tab := some mt,
               tab_scroll_index := some tsi }
    else
      some { child_bounds := pairs.map (fun q => q.1),
             drag_bounds := pairs.map (fun q => q.2),
             tab_clip := some (tx0, y, cdx, TabHeight),
             drag_bar := none, left_tab := 0, max_tab := none,
             tab_scroll_index := some (-1) }
  else
    match vc with
    | [] => none
    | c :: _ =>
        let (db, x1, y1, dx1, dy1) :=
          if !c.locked then
            match c.style with
            | .horizontal => ((x, y, dx0, DragBarSize), x, y + DragBarSize,
                              dx0, dy0 - DragBarSize)
            | .vertical => ((x, y, DragBarSize, dy0), x + DragBarSize, y,
                            dx0 - DragBarSize, dy0)
            | _ => ((0, 0, 0, 0), x, y, dx0, dy0)
          else ((0, 0, 0, 0), x, y, dx0, dy0)
        let cb := (x1, y1, max 0 dx1, max 0 dy1)
        some { child_bounds := [cb],
               drag_bounds := [DockItem.set_drag_bounds cb db.1 db.2.1
                 db.2.2.1 db.2.2.2],
               tab_clip := none, drag_bar := some db,
               left_tab := left_tab0, max_tab := none,
               tab_scroll_index := none }

/-- `DockRegion.draw` (lines 2287-2331), reduced to its guard and
indexing structure: a region whose `_visible` is `False` skips drawing;
a notebook guards the not-yet-laid-out case (`_tab_clip_bounds is None`,
lines 2300-2301) and then draws `contents[active]`'s tab; a non-notebook
region indexes `visible_contents[0]` (line 2322) and raises `IndexError`
(`none`) when no visible child exists. -/
def DockRegion.draw (contents : List RegionChild) (active : Int)
    (visibleFlag : Option Bool) (tab_clip_set : Bool) : Option Unit :=
  if visibleFlag = some false then some ()
  else if DockRegion.is_notebook contents then
    if tab_clip_set = false then some ()
    else
      match pyIndex contents active with
      | none => none
      | some _ => some ()
  else
    match contents.filter (fun c => c.visible) with
    | [] => none
    | _ :: _ => some ()

/-- The loop of `DockSection.recalc_sizes_fixed` for a row (lines
2940-2946): each visible child gets its minimum size clamped to the
remaining space, followed by a fixed 3 pixel gutter. -/
def fixedRowLoop (x y dx dy : Int) :
    List (Int × Int) → List (Int × Int × Int × Int)
  | [] => []
  | (mdx, mdy) :: rest =>
      let idx := min dx mdx
      let idy := min dy mdy
      (x, y, idx, idy) :: fixedRowLoop (x + idx + 3) y
        (max 0 (dx - idx - 3)) dy rest

/-- The loop of `DockSection.recalc_sizes_fixed` for a column (lines
2952-2958). -/
def fixedColLoop (x y dx dy : Int) :
    List (Int × Int) → List (Int × Int × Int × Int)
  | [] => []
  | (mdx, mdy) :: rest =>
      let idx := min dx mdx
      let idy := min dy mdy
      (x, y, idx, idy) :: fixedColLoop x (y + idy + 3) dx
        (max 0 (dy - idy - 3)) rest

/-- `DockSection.recalc_sizes_fixed` (lines 2925-2961): `mins` are the
visible children's `calc_min()` results; the row variant.  This is the
path `recalc_sizes` takes when no child is resizable (lines 2832-2835),
in particular for an empty section. -/
def DockSection.recalc_sizes_fixed_row (mins : List (Int × Int))
    (x y dx dy : Int) : List (Int × Int × Int × Int) :=
  fixedRowLoop (x + 3) (y + 3) (max 0 (dx - 3)) (max 0 (dy - 3)) mins

/-- `DockSection.recalc_sizes_fixed` for a column section. -/
def DockSection.recalc_sizes_fixed_col (mins : List (Int × Int))
    (x y dx dy : Int) : List (Int × Int × Int × Int) :=
  fixedColLoop (x + 3) (y + 3) (max 0 (dx - 3)) (max 0 (dy - 3)) mins

/-- `DockSection.draw` (lines 2967-2983), reduced to its guard structure:
nothing is drawn when `_visible` is `False`; otherwise the background is
filled exactly when the section has no visible children or is not
resizable, and the children/splitter loops never index the list.  The
function is total: section drawing cannot raise an indexing error. -/
def DockSection.draw (visibleFlag : Option Bool) (visible_count : Nat)
    (resizable : Bool) : Option Bool :=
  if visibleFlag = some false then some false
  else some (visible_count = 0 || !resizable)

/-- The possible shapes of a Python value handed to the tree-building API
`DockSizer.SetContents`: an existing `DockControl`, `DockRegion`,
`DockSection` or `DockSplitter` instance, a tuple, a list, or anything
else. -/
inductive PyObj where
  | control
  | region
  | sect
  | splitter
  | tup (xs : List PyObj)
  | lst (xs : List PyObj)
  | other

/-- The tree built by `SetContents`: leaves are pre-existing dock items
embedded as-is, `region`/`sect` nodes are the groups the builders
create. -/
inductive BTree where
  | controlLeaf
  | regionLeaf
  | sectLeaf
  | splitterLeaf
  | region (cs : List BTree)
  | sect (is_row : Bool) (cs : List BTree)

mutual

/-- The item loop of `DockSizer._set_region` (lines 3507-3519): a tuple
becomes a nested region, a list a row section, and any `DockItem`
instance (control, group or even a splitter) is accepted as-is; anything
else raises `TypeError` (`none`). -/
def set_region_items : List PyObj → Option (List BTree)
  | [] => some []
  | v :: vs =>
      match set_region_item v, set_region_items vs with
      | some t, some ts => some (t :: ts)
      | _, _ => none

/-- One item of `_set_region` (lines 3510-3517). -/
def set_region_item : PyObj → Option BTree
  | .tup xs => (set_region_items xs).map BTree.region
  | .lst xs => (set_section_items xs true).map (BTree.sect true)
  | .control => some .controlLeaf
  | .region => some .regionLeaf
  | .sect => some .sectLeaf
  | .splitter => some .splitterLeaf
  | .other => none

/-- The item loop of `DockSizer._set_section` (lines 3521-3532): a tuple
becomes a region, a list a section of flipped orientation, and a
`DockControl` is wrapped in a fresh single-item region; any other value —
including an existing `DockGroup` — raises `TypeError` (`none`). -/
def set_section_items : List PyObj → Bool → Option (List BTree)
  | [], _ => some []
  | v :: vs, is_row =>
      match set_section_item v is_row, set_section_items vs is_row with
      | some t, some ts => some (t :: ts)
      | _, _ => none

/-- One item of `_set_section` (lines 3523-3531). -/
def set_section_item : PyObj → Bool → Option BTree
  | .tup xs, _ => (set_region_items xs).map BTree.region
  | .lst xs, is_row =>
      (set_section_items xs (!is_row)).map (BTree.sect (!is_row))
  | .control, _ => some (.region [.controlLeaf])
  | _, _ => none

end

/-- `DockSizer.SetContents` (lines 3483-3495): a `DockGroup` is used
directly, a tuple builds a region, a list builds a row section, a single
`DockControl` builds a one-control section, and anything else raises
`TypeError` (`none`). -/
def DockSizer.SetContents : PyObj → Option BTree
  | .region => some .regionLeaf
  | .sect => some .sectLeaf
  | .tup xs => (set_region_items xs).map BTree.region
  | .lst xs => (set_section_items xs true).map (BTree.sect true)
  | .control => (set_section_items [.control] true).map (BTree.sect true)
  | _ => none

mutual

/-- The shapes accepted inside a tuple, following the isinstance tests of
`_set_region` exactly: tuples, lists, and any `DockItem`. -/
def okRegionItems : List PyObj → Bool
  | [] => true
  | v :: vs => okRegionItem v && okRegionItems vs

/-- One tuple item of the acceptance grammar. -/
def okRegionItem : PyObj → Bool
  | .tup xs => okRegionItems xs
  | .lst xs => okSectionItems xs
  | .other => false
  | _ => true

/-- The shapes accepted inside a list, following the isinstance tests of
`_set_section` exactly: tuples, lists, and `DockControl` leaves only. -/
def okSectionItems : List PyObj → Bool
  | [] => true
  | v :: vs => okSectionItem v && okSectionItems vs

/-- One list item of the acceptance grammar. -/
def okSectionItem : PyObj → Bool
  | .tup xs => okRegionItems xs
  | .lst xs => okSectionItems xs
  | .control => true
  | _ => false

end

/-- The shapes accepted at the top level of `SetContents`: a `DockGroup`,
a `DockControl`, a tuple of region items, or a list of section items. -/
def okTop : PyObj → Bool
  | .region => true
  | .sect => true
  | .control => true
  | .tup xs => okRegionItems xs
  | .lst xs => okSectionItems xs
  | _ => false

theorem alloc_sum (delta cdx : Int) :
    ∀ (ws : List Int) (r : Int), ws ≠ [] →
      (alloc delta cdx ws r).sum = ws.sum + r
  | [], _, h => absurd rfl h
  | [w], r, _ => by simp [alloc]; ring
  | w :: w' :: ws, r, _ => by
      have ih := alloc_sum delta cdx (w' :: ws)
        (r - pyRound (w * delta) cdx) (by simp)
      simp only [alloc, List.sum_cons] at ih ⊢
      omega

/-- C1 counterexample: a row section with two visible children of current
width 0 laid out into a positive target width 100 assigns extents summing
to 99, not 100: the clamp `cdx = max(1, 0)` (line 2849) makes the last
child absorb one pixel less than the claimed exact remainder. -/
theorem C1_counterexample :
    ¬ ((DockSection.recalc_row [0, 0] 100).sum
        + ((2 : Int) - 1) * SplitterSizeV = 100) := by decide

/-- C1 (amended): for a resizable section laid out by the proportional
path of `recalc_sizes`, whenever the total current size of the visible
children is at least 1 and the target extent is nonnegative, the sum of
the extents assigned to the children along the primary axis plus the
splitter gutters between them is exactly the target extent `dx` (row) or
`dy` (column): the last child absorbs the exact remainder, so no rounding
drift accumulates. -/
theorem C1_section_layout_sum_exact (widths heights : List Int)
    (dx dy : Int) (hw : 1 ≤ widths.sum) (hh : 1 ≤ heights.sum)
    (hdx : 0 ≤ dx) (hdy : 0 ≤ dy) :
    (DockSection.recalc_row widths dx).sum
        + ((widths.length : Int) - 1) * SplitterSizeV = dx ∧
    (DockSection.recalc_col heights dy).sum
        + ((heights.length : Int) - 1) * SplitterSizeH = dy := by
  constructor
  · have hne : widths ≠ [] := by rintro rfl; simp at hw
    rw [DockSection.recalc_row, alloc_sum _ _ _ _ hne,
        max_eq_right hw, max_eq_right hdx]
    ring
  · have hne : heights ≠ [] := by rintro rfl; simp at hh
    rw [DockSection.recalc_col, alloc_sum _ _ _ _ hne,
        max_eq_right hh, max_eq_right hdy]
    ring

/-- C1 witness: the amended sum property evaluated at a concrete layout
(a row [40, 70] into width 200 and a column [10, 20, 30] into height
150). -/
theorem C1_section_layout_sum_exact_witness :
    (1 : Int) ≤ ([40, 70] : List Int).sum ∧
    (1 : Int) ≤ ([10, 20, 30] : List Int).sum ∧
    (DockSection.recalc_row [40, 70] 200).sum
        + ((2 : Int) - 1) * SplitterSizeV = 200 ∧
    (DockSection.recalc_col [10, 20, 30] 150).sum
        + ((3 : Int) - 1) * SplitterSizeH = 150 := by
  have h := C1_section_layout_sum_exact [40, 70] [10, 20, 30] 200 150
    (by decide) (by decide) (by decide) (by decide)
  exact ⟨by decide, by decide, h.1, h.2⟩

/-- C5 counterexample: a row section with two children of current width
100 laid out into width 250 assigns [119, 119], not a 120/121 split, and
the vertical splitter constant is 12, not 9 (line 79), so 120+121+9 does
not reproduce the target either. -/
theorem C5_counterexample :
    DockSection.recalc_row [100, 100] 250 ≠ [120, 121] ∧
    DockSection.recalc_row [100, 100] 250 ≠ [121, 120] ∧
    SplitterSizeV ≠ 9 ∧ (120 : Int) + 121 + SplitterSizeV ≠ 250 := by
  decide

/-- C5 (amended): a root row section with two children of current width
100 and one vertical splitter (SplitterSizeV = 12) laid out into
`w = 250` assigns each child width 119, satisfying 119+119+12 = 250
exactly (proportional half-and-half with the remainder to the last
child). -/
theorem C5_two_children_250 :
    DockSection.recalc_row [100, 100] 250 = [119, 119] ∧
    (119 : Int) + 119 + SplitterSizeV = 250 := by decide

/-- C7: the displayed tab label equals the name when the name has at most
`MaxTabLength = 30` characters, and equals `name[:7] ++ "..." ++
name[-20:]` (30 characters in total) when the name is longer. -/
theorem C7_tab_label (name : List Char) :
    (name.length ≤ MaxTabLength → DockItem.tab_name name = name) ∧
    (MaxTabLength < name.length →
      DockItem.tab_name name =
        name.take 7 ++ ['.', '.', '.'] ++ name.drop (name.length - 20) ∧
      (DockItem.tab_name name).length = 30) := by
  constructor
  · intro h
    rw [DockItem.tab_name, if_neg (by omega)]
  · intro h
    rw [DockItem.tab_name, if_pos h]
    refine ⟨rfl, ?_⟩
    simp only [List.length_append, List.length_take, List.length_drop,
      List.length_cons, List.length_nil, MaxTabLength] at *
    omega

/-- C7 witness: the truncation rule evaluated at a 31-character name and
at a short name. -/
theorem C7_tab_label_witness :
    (DockItem.tab_name (List.replicate 31 'a')).length = 30 ∧
    DockItem.tab_name ['a', 'b'] = ['a', 'b'] :=
  ⟨((C7_tab_label (List.replicate 31 'a')).2 (by decide)).2,
   (C7_tab_label ['a', 'b']).1 (by decide)⟩

/-- C8 counterexample: for the rectangle (0, 0, 0, 0) — the default
`bounds` of every item — `is_at(x0, y0)` is false, refuting the claim
that `is_at(x0, y0)` is true for every rectangle used as bounds. -/
theorem C8_counterexample :
    DockItem.is_at 0 0 (0, 0, 0, 0) = false := by decide

/-- C8 (amended): `is_at` tests membership in the half-open rectangle
(inclusive on the minimum edge, exclusive on the maximum edge); hence
`is_at(x0, y0)` is true whenever the rectangle has positive width and
height, and `is_at(x0+w, y0)` is always false. -/
theorem C8_is_at_halfopen (x y x0 y0 w h : Int) :
    (DockItem.is_at x y (x0, y0, w, h) = true ↔
      (x0 ≤ x ∧ x < x0 + w ∧ y0 ≤ y ∧ y < y0 + h)) ∧
    (0 < w → 0 < h → DockItem.is_at x0 y0 (x0, y0, w, h) = true) ∧
    DockItem.is_at (x0 + w) y0 (x0, y0, w, h) = false := by
  refine ⟨?_, ?_, ?_⟩ <;> simp [DockItem.is_at] <;> omega

/-- C8 witness: the amended membership rule evaluated at the rectangle
(10, 20, 5, 5). -/
theorem C8_is_at_halfopen_witness :
    DockItem.is_at 12 21 (10, 20, 5, 5) = true ∧
    DockItem.is_at 10 20 (10, 20, 5, 5) = true ∧
    DockItem.is_at 15 20 (10, 20, 5, 5) = false := by
  refine ⟨?_, ?_, ?_⟩
  · exact (C8_is_at_halfopen 12 21 10 20 5 5).1.mpr (by decide)
  · exact (C8_is_at_halfopen 12 21 10 20 5 5).2.1 (by decide) (by decide)
  · exact (C8_is_at_halfopen 12 21 10 20 5 5).2.2

/-- C3: when `dock_info_at` on a section finds no drag-bar, splitter or
child match and `force` is requested, a pointer whose largest signed
outside-distance exceeds the 20 pixel margin yields `DOCK_EXPORT`;
otherwise the returned kind is the edge with the smallest absolute
pointer-to-edge distance, and the preview rectangle's depth along that
edge's axis is at most 2/3 of the section's extent on that axis. -/
theorem C3_section_edge_resolution (lx ty dx dy x y mdx0 mdy0 L R T B : Int)
    (hL : L = lx - x) (hR : R = x - lx - dx + 1)
    (hT : T = ty - y) (hB : B = y - ty - dy + 1) :
    (20 < max (max L R) (max T B) →
      DockSection.edge_dock_info lx ty dx dy x y mdx0 mdy0
        = (DOCK_EXPORT, (0, 0, 0, 0))) ∧
    (max (max L R) (max T B) ≤ 20 →
      ∃ k bx bty bw bh,
        DockSection.edge_dock_info lx ty dx dy x y mdx0 mdy0
          = (k, (bx, bty, bw, bh)) ∧
        ((k = DOCK_LEFT ∧
            abs L = min (min (min (abs L) (abs R)) (abs T)) (abs B) ∧
            3 * bw ≤ 2 * dx) ∨
         (k = DOCK_RIGHT ∧
            abs R = min (min (min (abs L) (abs R)) (abs T)) (abs B) ∧
            3 * bw ≤ 2 * dx) ∨
         (k = DOCK_TOP ∧
            abs T = min (min (min (abs L) (abs R)) (abs T)) (abs B) ∧
            3 * bh ≤ 2 * dy) ∨
         (k = DOCK_BOTTOM ∧
            abs B = min (min (min (abs L) (abs R)) (abs T)) (abs B) ∧
            3 * bh ≤ 2 * dy))) := by
  subst hL hR hT hB
  constructor
  · intro h
    simp only [DockSection.edge_dock_info]
    rw [if_pos h]
  · intro h
    simp only [DockSection.edge_dock_info]
    rw [if_neg (not_lt.mpr h)]
    split_ifs with h1 h2 h3
    · exact ⟨DOCK_LEFT, lx, ty, min mdx0 ((2 * dx) / 3), dy, rfl,
        Or.inl ⟨rfl, h1.symm,
          by have := min_le_right mdx0 ((2 * dx) / 3); omega⟩⟩
    · exact ⟨DOCK_RIGHT, lx + dx - min mdx0 ((2 * dx) / 3), ty,
        min mdx0 ((2 * dx) / 3), dy, rfl,
        Or.inr (Or.inl ⟨rfl, h2.symm,
          by have := min_le_right mdx0 ((2 * dx) / 3); omega⟩)⟩
    · exact ⟨DOCK_TOP, lx, ty, dx, min mdy0 ((2 * dy) / 3), rfl,
        Or.inr (Or.inr (Or.inl ⟨rfl, h3.symm,
          by have := min_le_right mdy0 ((2 * dy) / 3); omega⟩))⟩
    · refine ⟨DOCK_BOTTOM, lx, ty + dy - min mdy0 ((2 * dy) / 3), dx,
        min mdy0 ((2 * dy) / 3), rfl,
        Or.inr (Or.inr (Or.inr ⟨rfl, ?_,
          by have := min_le_right mdy0 ((2 * dy) / 3); omega⟩))⟩
      have m1 := min_cases (abs (lx - x)) (abs (x - lx - dx + 1))
      have m2 := min_cases (min (abs (lx - x)) (abs (x - lx - dx + 1)))
        (abs (ty - y))
      have m3 := min_cases
        (min (min (abs (lx - x)) (abs (x - lx - dx + 1))) (abs (ty - y)))
        (abs (y - ty - dy + 1))
      omega

/-- C3 witness: a pointer 2 pixels left of the left edge of a 30x30
section with no closer edge yields kind `DOCK_LEFT` with preview width 20
(which is exactly 2/3 of the section's width), and a pointer 25 pixels
left of the section yields `DOCK_EXPORT`. -/
theorem C3_section_edge_resolution_witness :
    (∃ k bx bty bw bh,
      DockSection.edge_dock_info 0 0 30 30 (-2) 15 100 100
        = (k, (bx, bty, bw, bh)) ∧
      ((k = DOCK_LEFT ∧
          abs (2 : Int) = min (min (min (abs (2 : Int)) (abs (-31)))
            (abs (-15))) (abs (-14)) ∧ 3 * bw ≤ 2 * 30) ∨
       (k = DOCK_RIGHT ∧
          abs (-31 : Int) = min (min (min (abs (2 : Int)) (abs (-31)))
            (abs (-15))) (abs (-14)) ∧ 3 * bw ≤ 2 * 30) ∨
       (k = DOCK_TOP ∧
          abs (-15 : Int) = min (min (min (abs (2 : Int)) (abs (-31)))
            (abs (-15))) (abs (-14)) ∧ 3 * bh ≤ 2 * 30) ∨
       (k = DOCK_BOTTOM ∧
          abs (-14 : Int) = min (min (min (abs (2 : Int)) (abs (-31)))
            (abs (-15))) (abs (-14)) ∧ 3 * bh ≤ 2 * 30))) ∧
    DockSection.edge_dock_info 0 0 30 30 (-25) 15 100 100
      = (DOCK_EXPORT, (0, 0, 0, 0)) :=
  ⟨(C3_section_edge_resolution 0 0 30 30 (-2) 15 100 100
      2 (-31) (-15) (-14) (by decide) (by decide)
      (by decide) (by decide)).2 (by decide),
   (C3_section_edge_resolution 0 0 30 30 (-25) 15 100 100
      25 (-54) (-15) (-14) (by decide) (by decide)
      (by decide) (by decide)).1 (by decide)⟩

theorem sectionRemoveStep_delete (pre post : List DItem) (a : DItem)
    (h : a.one_child = false) :
    DockSection.removeStep pre post a = pre ++ post := by
  cases a with
  | ctrl i => rfl
  | region act cs =>
      match cs with
      | [] => rfl
      | [c] => simp [DItem.one_child] at h
      | c :: d :: cs => cases c <;> rfl
  | sect r cs =>
      match cs with
      | [] => rfl
      | [c] => simp [DItem.one_child] at h
      | c :: d :: cs => cases c <;> rfl

theorem regionRemoveStep_delete (act : Int) (pre post : List DItem)
    (a : DItem) (h : a.one_child = false) :
    DockRegion.removeStep act pre post a
      = (pre ++ post,
         if (pre.length : Int) < act ∨
            ((pre.length : Int) + post.length) ≤ act
         then act - 1 else act) := by
  cases a with
  | ctrl i => rfl
  | region act' cs =>
      match cs with
      | [] => rfl
      | [c] => simp [DItem.one_child] at h
      | c :: d :: cs => cases c <;> rfl
  | sect r cs =>
      match cs with
      | [] => rfl
      | [c] => simp [DItem.one_child] at h
      | c :: d :: cs => cases c <;> rfl

theorem cascade_sect_single (hasW : Bool) (fs : List Frame) (pIsRow : Bool)
    (ppre ppost : List DItem) (sIsRow : Bool) (c : DItem)
    (hlen : 2 ≤ ppre.length + 1 + ppost.length) :
    removeCascade hasW fs (.sect pIsRow ppre ppost) (.sect sIsRow [c])
      = (plug fs (.sect pIsRow (ppre ++ [c] ++ ppost)), false) := by
  have h2 : DockSection.removeStep ppre ppost (.sect sIsRow [c])
      = ppre ++ [c] ++ ppost := rfl
  have hl : (ppre ++ [c] ++ ppost).length
      = ppre.length + 1 + ppost.length := by
    simp [List.length_append]
    omega
  cases fs with
  | nil =>
      simp only [removeCascade, h2, plug]
      have h0 : (ppre ++ [c] ++ ppost).length ≠ 0 := by omega
      simp [h0]
  | cons f fs' =>
      simp only [removeCascade, h2]
      rw [if_neg (by omega)]

/-- C2 counterexample: removing the second-to-last child of a size-2
DockRegion whose parent is a section does NOT collapse anything: the
region keeps its single remaining child and the parent section is left
unchanged (the flattened tree, where the section would hold the control
directly, is a different tree).  `DockRegion.remove` only asks its parent
to remove it when it becomes empty or when its parent is itself a region
(lines 2256-2261). -/
theorem C2_counterexample :
    removeCascade true [.sect true [] []] (.region 0 [] [.ctrl 1])
        (.ctrl 0)
      = (.sect true [.region 0 [.ctrl 1]], false) ∧
    DItem.sect true [.region 0 [.ctrl 1]] ≠ DItem.sect true [.ctrl 1] :=
  ⟨rfl, by simp⟩

/-- C2 (amended): after `DockSection.remove(item)`, if at most one child
remains and the section has a parent, the section asks the parent to
remove it, and the parent replaces the now-redundant section by its
remaining child (part 1); a root section (with a dock window attached)
left with zero children notifies the window that the dock area is empty
(part 2); the collapse propagates transitively upward through a chain of
single-child sections (part 3); a region asks its parent to remove it
when it becomes empty, and the parent section then deletes it (part 4).
A size-2 region, however, keeps its single remaining child (see the
counterexample). -/
theorem C2_section_remove_collapse :
    (∀ (hasW : Bool) (fs : List Frame) (pIsRow sIsRow : Bool)
        (ppre ppost : List DItem) (a b : DItem),
        a.one_child = false → 2 ≤ ppre.length + 1 + ppost.length →
        removeCascade hasW (.sect pIsRow ppre ppost :: fs)
            (.sect sIsRow [] [b]) a
          = (plug fs (.sect pIsRow (ppre ++ [b] ++ ppost)), false)) ∧
    (∀ (sIsRow : Bool) (a : DItem), a.one_child = false →
        removeCascade true [] (.sect sIsRow [] []) a
          = (.sect sIsRow [], true)) ∧
    (∀ (hasW : Bool) (fs : List Frame) (qIsRow pIsRow sIsRow : Bool)
        (qpre qpost : List DItem) (a b : DItem),
        a.one_child = false → 2 ≤ qpre.length + 1 + qpost.length →
        removeCascade hasW
            (.sect pIsRow [] [] :: .sect qIsRow qpre qpost :: fs)
            (.sect sIsRow [] [b]) a
          = (plug fs (.sect qIsRow (qpre ++ [b] ++ qpost)), false)) ∧
    (∀ (hasW : Bool) (fs : List Frame) (pIsRow : Bool)
        (ppre ppost : List DItem) (act : Int) (a : DItem),
        a.one_child = false → 2 ≤ ppre.length + ppost.length →
        removeCascade hasW (.sect pIsRow ppre ppost :: fs)
            (.region act [] []) a
          = (plug fs (.sect pIsRow (ppre ++ ppost)), false)) := by
  refine ⟨?_, ?_, ?_, ?_⟩
  · intro hasW fs pIsRow sIsRow ppre ppost a b ha hlen
    have h1 : DockSection.removeStep [] [b] a = [b] := by
      rw [sectionRemoveStep_delete _ _ _ ha]
      rfl
    simp only [removeCascade, h1, List.length_cons, List.length_nil]
    rw [if_pos (by omega)]
    exact cascade_sect_single hasW fs pIsRow ppre ppost sIsRow b hlen
  · intro sIsRow a ha
    simp only [removeCascade, sectionRemoveStep_delete _ _ _ ha]
    rfl
  · intro hasW fs qIsRow pIsRow sIsRow qpre qpost a b ha hlen
    have h1 : DockSection.removeStep [] [b] a = [b] := by
      rw [sectionRemoveStep_delete _ _ _ ha]
      rfl
    simp only [removeCascade, h1, List.length_cons, List.length_nil]
    rw [if_pos (by omega)]
    rw [if_pos (by exact Nat.le.refl)]
    exact cascade_sect_single hasW fs qIsRow qpre qpost pIsRow b hlen
  · intro hasW fs pIsRow ppre ppost act a ha hlen
    have hstep := regionRemoveStep_delete act [] [] a ha
    have h2 : ∀ act2 : Int,
        DockSection.removeStep ppre ppost (.region act2 [])
          = ppre ++ ppost :=
      fun _ => rfl
    have hl : (ppre ++ ppost).length = ppre.length + ppost.length := by
      simp [List.length_append]
    cases fs with
    | nil =>
        simp only [removeCascade, hstep, List.nil_append, List.length_nil,
          eq_self_iff_true, if_true, h2, plug]
        have h0 : (ppre ++ ppost).length ≠ 0 := by omega
        simp [h0]
        intro hp hq
        rw [hp, hq] at hlen
        simp at hlen
    | cons f fs' =>
        simp only [removeCascade, hstep, List.nil_append, List.length_nil,
          eq_self_iff_true, if_true, h2]
        rw [if_neg (by omega)]

/-- C2 witness: the four collapse behaviors evaluated on concrete trees:
a size-2 section inside a larger section, an emptied root section with a
window attached, a two-level transitive collapse, and an emptied region
deleted from a 3-child section. -/
theorem C2_section_remove_collapse_witness :
    removeCascade false [.sect true [.ctrl 7] []]
        (.sect false [] [.ctrl 1]) (.ctrl 0)
      = (.sect true [.ctrl 7, .ctrl 1], false) ∧
    removeCascade true [] (.sect true [] []) (.ctrl 0)
      = (.sect true [], true) ∧
    removeCascade false
        [.sect true [] [], .sect false [.ctrl 7] [.ctrl 8]]
        (.sect true [] [.ctrl 1]) (.ctrl 0)
      = (.sect false [.ctrl 7, .ctrl 1, .ctrl 8], false) ∧
    removeCascade false [.sect true [.ctrl 7, .ctrl 8] []]
        (.region 0 [] []) (.ctrl 0)
      = (.sect true [.ctrl 7, .ctrl 8], false) := by
  obtain ⟨h1, h2, h3, h4⟩ := C2_section_remove_collapse
  exact ⟨h1 false [] true false [.ctrl 7] []
      (.ctrl 0) (.ctrl 1) rfl (by simp),
    h2 true (.ctrl 0) rfl,
    h3 false [] false true true [.ctrl 7] [.ctrl 8] (.ctrl 0) (.ctrl 1)
      rfl (by simp),
    h4 false [] true [.ctrl 7, .ctrl 8] [] 0 (.ctrl 0) rfl (by simp)⟩

theorem pyListIndex_lt {α : Type} [DecidableEq α] :
    ∀ (l : List α) (x : α) (i : Nat), pyListIndex l x = some i →
      i < l.length
  | [], x, i => by simp [pyListIndex]
  | c :: cs, x, i => by
      simp only [pyListIndex]
      split_ifs with h
      · rintro ⟨⟩
        simp
      · intro hm
        simp only [Option.map_eq_some'] at hm
        obtain ⟨j, hj, rfl⟩ := hm
        have := pyListIndex_lt cs x j hj
        simp
        omega

theorem pyListIndex_get {α : Type} [DecidableEq α] :
    ∀ (l : List α) (x : α) (i : Nat), pyListIndex l x = some i →
      l.get? i = some x
  | [], x, i => by simp [pyListIndex]
  | c :: cs, x, i => by
      simp only [pyListIndex]
      split_ifs with h
      · rintro ⟨⟩
        simp [h]
      · intro hm
        simp only [Option.map_eq_some'] at hm
        obtain ⟨j, hj, rfl⟩ := hm
        simpa using pyListIndex_get cs x j hj

theorem count_insertIdx {α : Type} [DecidableEq α] (a : α) :
    ∀ (n : Nat) (l : List α), n ≤ l.length →
      (l.insertIdx n a).count a = l.count a + 1
  | 0, l, _ => by simp [List.insertIdx_zero, List.count_cons]
  | n + 1, [], h => by simp at h
  | n + 1, b :: l, h => by
      rw [List.insertIdx_succ_cons]
      simp only [List.count_cons]
      rw [count_insertIdx a n l (by simpa using h)]
      split <;> omega

theorem add_index_le {α : Type} [DecidableEq α] {cs : List α}
    {before after : Option α} {i : Nat}
    (h : add_index cs before after = some i) : i ≤ cs.length := by
  rcases before with _ | b
  · rcases after with _ | a2
    · simp [add_index] at h
      omega
    · rcases h2 : pyListIndex cs a2 with _ | j
      · simp [add_index, h2] at h
      · simp [add_index, h2] at h
        have := pyListIndex_lt _ _ _ h2
        omega
  · rcases h2 : pyListIndex cs b with _ | j
    · simp [add_index, h2] at h
    · simp [add_index, h2] at h
      have := pyListIndex_lt _ _ _ h2
      omega

theorem add_inv {α : Type} [DecidableEq α] {p : Bool} {contents : List α}
    {active : Int} {control : α} {before after : Option α}
    {activate : Bool} {l' : List α} {a' : Int}
    (hres : DockRegion.add p contents active control before after activate
        = some (l', a')) :
    ∃ (cs : List α) (i : Nat),
      ((p = true ∧ control ∈ contents ∧ cs = contents.erase control) ∨
       (p = false ∧ cs = contents)) ∧
      i ≤ cs.length ∧ l' = cs.insertIdx i control ∧
      a' = if activate then (i : Int) else active := by
  rw [DockRegion.add] at hres
  cases p with
  | true =>
      by_cases hmem : control ∈ contents
      · rw [if_pos rfl, if_pos hmem] at hres
        replace hres :
            (match add_index (contents.erase control) before after with
             | none => (none : Option (List α × Int))
             | some i =>
                 some ((contents.erase control).insertIdx i control,
                       if activate then (i : Int) else active))
              = some (l', a') := hres
        rcases h2 : add_index (contents.erase control) before after
          with _ | i
        · rw [h2] at hres
          simp at hres
        · rw [h2] at hres
          simp only [Option.some.injEq, Prod.mk.injEq] at hres
          exact ⟨contents.erase control, i, Or.inl ⟨rfl, hmem, rfl⟩,
            add_index_le h2, hres.1.symm, hres.2.symm⟩
      · rw [if_pos rfl, if_neg hmem] at hres
        simp at hres
  | false =>
      rw [if_neg (by simp)] at hres
      replace hres :
          (match add_index contents before after with
           | none => (none : Option (List α × Int))
           | some i =>
               some (contents.insertIdx i control,
                     if activate then (i : Int) else active))
            = some (l', a') := hres
      rcases h2 : add_index contents before after with _ | i
      · rw [h2] at hres
        simp at hres
      · rw [h2] at hres
        simp only [Option.some.injEq, Prod.mk.injEq] at hres
        exact ⟨contents, i, Or.inr ⟨rfl, rfl⟩,
          add_index_le h2, hres.1.symm, hres.2.symm⟩

theorem add_active_bound {α : Type} [DecidableEq α]
    {p : Bool} {contents : List α} {active : Int} {control : α}
    {before after : Option α} {activate : Bool} {l' : List α} {a' : Int}
    (h0 : 0 ≤ active) (h1 : active < contents.length)
    (hres : DockRegion.add p contents active control before after activate
        = some (l', a')) :
    0 ≤ a' ∧ a' < l'.length := by
  obtain ⟨cs, i, hcs, hi, hl, ha⟩ := add_inv hres
  subst hl
  have hlen : (cs.insertIdx i control).length = cs.length + 1 :=
    List.length_insertIdx i _ hi
  rcases hcs with ⟨_, hmem, rfl⟩ | ⟨_, rfl⟩
  · have := List.length_erase_of_mem hmem
    have hcl : 1 ≤ contents.length := List.length_pos.mpr
      (List.ne_nil_of_mem hmem)
    rw [ha]
    split_ifs <;> constructor <;> push_cast [hlen] <;> omega
  · rw [ha]
    split_ifs <;> constructor <;> push_cast [hlen] <;> omega

theorem delete_active_bound (act : Int) (pre post : List DItem)
    (h0 : 0 ≤ act) (h1 : act < (pre.length : Int) + 1 + post.length)
    (hne : pre ++ post ≠ []) :
    0 ≤ (if (pre.length : Int) < act ∨
            ((pre.length : Int) + post.length) ≤ act
         then act - 1 else act) ∧
    (if (pre.length : Int) < act ∨
        ((pre.length : Int) + post.length) ≤ act
     then act - 1 else act) < ((pre ++ post).length : Int) := by
  have hl : (pre ++ post).length = pre.length + post.length :=
    List.length_append pre post
  have hp : 0 < (pre ++ post).length := List.length_pos.mpr hne
  split_ifs <;> constructor <;> omega

theorem removeStep_active_bound (act : Int) (pre post : List DItem)
    (item : DItem) (hwf : item.splice_safe = true) (h0 : 0 ≤ act)
    (h1 : act < (pre.length : Int) + 1 + post.length)
    (hne : (DockRegion.removeStep act pre post item).1 ≠ []) :
    0 ≤ (DockRegion.removeStep act pre post item).2 ∧
    (DockRegion.removeStep act pre post item).2
      < ((DockRegion.removeStep act pre post item).1.length : Int) := by
  cases item with
  | ctrl i => exact delete_active_bound act pre post h0 h1 hne
  | region a cs =>
      match cs with
      | [] => exact delete_active_bound act pre post h0 h1 hne
      | [c] =>
          cases c with
          | ctrl i =>
              refine ⟨h0, ?_⟩
              simp only [DockRegion.removeStep, List.length_append,
                List.length_cons, List.length_nil]
              push_cast
              omega
          | region a2 cs2 =>
              have hcs2 : 0 < cs2.length := by
                simp [DItem.splice_safe, List.isEmpty_iff] at hwf
                exact List.length_pos.mpr hwf
              refine ⟨h0, ?_⟩
              simp only [DockRegion.removeStep, List.length_append]
              push_cast
              omega
          | sect r2 cs2 =>
              refine ⟨h0, ?_⟩
              simp only [DockRegion.removeStep, List.length_append,
                List.length_cons, List.length_nil]
              push_cast
              omega
      | c :: d :: t =>
          cases c <;> exact delete_active_bound act pre post h0 h1 hne
  | sect r cs =>
      match cs with
      | [] => exact delete_active_bound act pre post h0 h1 hne
      | [c] =>
          cases c with
          | ctrl i =>
              refine ⟨h0, ?_⟩
              simp only [DockRegion.removeStep, List.length_append,
                List.length_cons, List.length_nil]
              push_cast
              omega
          | region a2 cs2 =>
              have hcs2 : 0 < cs2.length := by
                simp [DItem.splice_safe, List.isEmpty_iff] at hwf
                exact List.length_pos.mpr hwf
              refine ⟨h0, ?_⟩
              simp only [DockRegion.removeStep, List.length_append]
              push_cast
              omega
          | sect r2 cs2 =>
              refine ⟨h0, ?_⟩
              simp only [DockRegion.removeStep, List.length_append,
                List.length_cons, List.length_nil]
              push_cast
              omega
      | c :: d :: t =>
          cases c <;> exact delete_active_bound act pre post h0 h1 hne

theorem mem_intsFrom : ∀ (n : Nat) (a j : Int),
    j ∈ intsFrom a n ↔ a ≤ j ∧ j < a + n
  | 0, a, j => by simp [intsFrom]
  | n + 1, a, j => by
      rw [intsFrom, List.mem_cons, mem_intsFrom n (a + 1) j]
      omega

theorem mem_intsDown : ∀ (n : Nat) (a j : Int),
    j ∈ intsDown a n ↔ a - n < j ∧ j ≤ a
  | 0, a, j => by simp [intsDown]
  | n + 1, a, j => by
      rw [intsDown, List.mem_cons, mem_intsDown n (a - 1) j]
      omega

theorem mem_intRange {a b j : Int} : j ∈ intRange a b ↔ a ≤ j ∧ j < b := by
  rw [intRange, mem_intsFrom]
  omega

theorem mem_intRangeDown {a j : Int} :
    j ∈ intRangeDown a ↔ 0 ≤ j ∧ j ≤ a := by
  rw [intRangeDown, mem_intsDown]
  omega

theorem pyIndex_of_bounds {α : Type} {l : List α} {j : Int}
    (h0 : 0 ≤ j) (h1 : j < l.length) :
    ∃ c, pyIndex l j = some c ∧ l.get? j.toNat = some c := by
  have hlt : j.toNat < l.length := by omega
  refine ⟨l.get ⟨j.toNat, hlt⟩, ?_, ?_⟩
  · rw [pyIndex, if_pos h0]
    exact List.get?_eq_get hlt
  · exact List.get?_eq_get hlt

theorem findActive_spec {α : Type} (vis : α → Bool) (contents : List α) :
    ∀ (idxs : List Int),
      (∀ j ∈ idxs, 0 ≤ j ∧ j < contents.length) →
      (∃ j ∈ idxs, ∃ c, pyIndex contents j = some c ∧ vis c = true) →
      ∃ i, findActive vis contents idxs = some i ∧ 0 ≤ i ∧
        (i < contents.length) ∧
        ∃ c, pyIndex contents i = some c ∧ vis c = true
  | [], _, hex => by simp at hex
  | i :: rest, hb, hex => by
      obtain ⟨c, hc, _⟩ := pyIndex_of_bounds (hb i (by simp)).1
        (hb i (by simp)).2
      rw [findActive, hc, Option.some_bind]
      by_cases hv : vis c
      · rw [if_pos hv]
        exact ⟨i, rfl, (hb i (by simp)).1, (hb i (by simp)).2, c, hc, hv⟩
      · rw [if_neg hv]
        refine findActive_spec vis contents rest
          (fun j hj => hb j (by simp [hj])) ?_
        obtain ⟨j, hj, c', hc', hv'⟩ := hex
        rcases List.mem_cons.mp hj with rfl | hj'
        · rw [hc] at hc'
          cases hc'
          exact absurd hv' hv
        · exact ⟨j, hj', c', hc', hv'⟩

theorem update_active_bound {α : Type} (vis : α → Bool)
    (contents : List α) (active : Int) (h0 : 0 ≤ active)
    (h1 : active < contents.length)
    (hex : ∃ (k : Nat) (hk : k < contents.length),
      vis (contents.get ⟨k, hk⟩) = true) :
    ∃ i : Int, DockRegion.update_active vis contents active = some i ∧
      0 ≤ i ∧ i < contents.length ∧
      ∃ c, pyIndex contents i = some c ∧ vis c = true := by
  obtain ⟨k, hk, hv⟩ := hex
  apply findActive_spec
  · intro j hj
    rcases List.mem_append.mp hj with h | h
    · have := mem_intRange.mp h
      exact ⟨by omega, by omega⟩
    · have := mem_intRangeDown.mp h
      exact ⟨by omega, by omega⟩
  · refine ⟨(k : Int), ?_, ?_⟩
    · apply List.mem_append.mpr
      by_cases hka : active ≤ (k : Int)
      · exact Or.inl (mem_intRange.mpr ⟨hka, by omega⟩)
      · exact Or.inr (mem_intRangeDown.mpr ⟨by omega, by omega⟩)
    · obtain ⟨c, hc, hg⟩ := pyIndex_of_bounds (l := contents)
        (j := (k : Int)) (by omega) (by omega)
      refine ⟨c, hc, ?_⟩
      have hget : contents.get? k = some (contents.get ⟨k, hk⟩) :=
        List.get?_eq_get hk
      rw [Int.toNat_natCast, hget] at hg
      cases hg
      exact hv

theorem set_visibility_flags_spec (n : Nat) (active : Int) (i : Nat)
    (hi : i < n) :
    (DockRegion.set_visibility_flags n active).get? i
      = some (decide ((i : Int) = active)) := by
  rw [DockRegion.set_visibility_flags, List.get?_map, List.get?_range hi,
    Option.map_some']

/-- C4 counterexample: `_update_active` on a region whose single child is
not visible sets `active = -1` even though `contents` is non-empty,
refuting the claim that `0 <= active < len(contents)` holds after every
region operation whenever `contents` is non-empty (the source itself uses
-1 to mean "no active tab"). -/
theorem C4_counterexample :
    DockRegion.update_active (fun b => b) [false] 0 = some (-1) ∧
    ([false] : List Bool).length ≠ 0 ∧ ¬ (0 ≤ (-1 : Int)) :=
  ⟨rfl, by simp, by decide⟩

/-- C4 (amended): the invariant `0 ≤ active < len(contents)` is preserved
by every region operation on well-formed input as long as a visible child
remains: (1) `add` keeps the new `active` in range; (2) the `remove`
contents update keeps `active` in range whenever the remaining contents
are non-empty (assuming a spliced single-grandchild region is non-empty,
as in any well-formed tree); (3) `tab_clicked` sets `active` to a valid
index of the clicked child; (4) `_update_active` returns an in-range
index of a visible child whenever at least one child is visible (with no
visible child it sets `active = -1` instead); and (5) `_set_visibility`
makes exactly the child at index `active` visible. -/
theorem C4_region_active_invariant :
    (∀ (α : Type) [DecidableEq α] (p : Bool) (contents : List α)
        (active : Int) (control : α) (before after : Option α)
        (activate : Bool) (l' : List α) (a' : Int),
        0 ≤ active → active < contents.length →
        DockRegion.add p contents active control before after activate
          = some (l', a') →
        0 ≤ a' ∧ a' < l'.length) ∧
    (∀ (act : Int) (pre post : List DItem) (item : DItem),
        item.splice_safe = true → 0 ≤ act →
        act < (pre.length : Int) + 1 + post.length →
        (DockRegion.removeStep act pre post item).1 ≠ [] →
        0 ≤ (DockRegion.removeStep act pre post item).2 ∧
        (DockRegion.removeStep act pre post item).2
          < ((DockRegion.removeStep act pre post item).1.length : Int)) ∧
    (∀ (α : Type) [DecidableEq α] (contents : List α) (control : α)
        (i : Nat), DockRegion.tab_clicked contents control = some i →
        i < contents.length) ∧
    (∀ (α : Type) (vis : α → Bool) (contents : List α) (active : Int),
        0 ≤ active → active < contents.length →
        (∃ (k : Nat) (hk : k < contents.length),
          vis (contents.get ⟨k, hk⟩) = true) →
        ∃ i : Int, DockRegion.update_active vis contents active = some i ∧
          0 ≤ i ∧ i < contents.length ∧
          ∃ c, pyIndex contents i = some c ∧ vis c = true) ∧
    (∀ (n : Nat) (active : Int) (i : Nat), i < n →
        ((DockRegion.set_visibility_flags n active).get? i = some true ↔
          (i : Int) = active)) := by
  refine ⟨?_, ?_, ?_, ?_, ?_⟩
  · intro α _ p contents active control before after activate l' a'
      h0 h1 hres
    exact add_active_bound h0 h1 hres
  · intro act pre post item hwf h0 h1 hne
    exact removeStep_active_bound act pre post item hwf h0 h1 hne
  · intro α _ contents control i h
    exact pyListIndex_lt contents control i h
  · intro α vis contents active h0 h1 hex
    exact update_active_bound vis contents active h0 h1 hex
  · intro n active i hi
    rw [set_visibility_flags_spec n active i hi]
    simp

/-- C4 witness: the five amended parts evaluated on concrete regions. -/
theorem C4_region_active_invariant_witness :
    ((0 : Int) ≤ 2 ∧ (2 : Int) < (([10, 20, 30] : List Nat).length : Int)) ∧
    (0 ≤ (DockRegion.removeStep 1 [] [.ctrl 1] (.ctrl 0)).2 ∧
      (DockRegion.removeStep 1 [] [.ctrl 1] (.ctrl 0)).2
        < (((DockRegion.removeStep 1 [] [.ctrl 1] (.ctrl 0)).1.length :
            Int))) ∧
    ((1 : Nat) < ([5, 6] : List Nat).length) ∧
    (∃ i : Int,
      DockRegion.update_active (fun b => b) [false, true] 0 = some i ∧
      0 ≤ i ∧ i < (([false, true] : List Bool).length : Int) ∧
      ∃ c, pyIndex [false, true] i = some c ∧ (fun b => b) c = true) ∧
    ((DockRegion.set_visibility_flags 3 1).get? 1 = some true ↔
      ((1 : Nat) : Int) = 1) := by
  obtain ⟨h1, h2, h3, h4, h5⟩ := C4_region_active_invariant
  refine ⟨?_, ?_, ?_, ?_, ?_⟩
  · exact h1 Nat false [10, 20] 0 30 none none true [10, 20, 30] 2
      (by decide) (by decide) rfl
  · exact h2 1 [] [.ctrl 1] (.ctrl 0) rfl (by decide) (by simp)
      (by exact fun h => List.noConfusion h)
  · exact h3 Nat [5, 6] 6 1 rfl
  · exact h4 Bool (fun b => b) [false, true] 0 (by decide) (by decide)
      ⟨1, by decide, rfl⟩
  · exact h5 3 1 1 (by decide)

/-- C10: `DockRegion.add` of a control whose parent is already this
region first removes the control and then re-inserts it: afterwards the
control occurs exactly once in `contents`, it sits at the insertion
index, and when `activate` is set `active` equals that index. -/
theorem C10_region_add_no_duplicate {α : Type} [DecidableEq α]
    (contents : List α) (active : Int) (control : α)
    (before after : Option α) (activate : Bool) (l' : List α) (a' : Int)
    (hcount : contents.count control = 1)
    (hres : DockRegion.add true contents active control before after
        activate = some (l', a')) :
    l'.count control = 1 ∧
    ∃ i : Nat, l'.get? i = some control ∧ (activate = true → a' = i) := by
  obtain ⟨cs, i, hcs, hi, hl, ha⟩ := add_inv hres
  rcases hcs with ⟨_, hmem, rfl⟩ | ⟨h, _⟩
  · subst hl
    have herase := List.count_erase_self control contents
    constructor
    · rw [count_insertIdx control i _ hi]
      omega
    · have hlen : i < ((contents.erase control).insertIdx i control).length := by
        rw [List.length_insertIdx i _ hi]
        omega
      refine ⟨i, ?_, ?_⟩
      · rw [List.get?_eq_getElem?, List.getElem?_eq_getElem hlen,
          List.getElem_insertIdx_self _ _ _ hi]
      · intro hact
        rw [ha, if_pos hact]
  · cases h

/-- C10 witness: re-adding the control 2 (already present in [1, 2, 3])
at the end re-activates it at its new index 2, with a single
occurrence. -/
theorem C10_region_add_no_duplicate_witness :
    ([1, 3, 2] : List Nat).count 2 = 1 ∧
    ∃ i : Nat, ([1, 3, 2] : List Nat).get? i = some 2 ∧
      (true = true → (2 : Int) = i) :=
  C10_region_add_no_duplicate [1, 2, 3] 0 2 none none true [1, 3, 2] 2
    (by decide) rfl

/-- C6 counterexample: `DockRegion.recalc_sizes` and `DockRegion.draw` on
a region with no (visible) children raise `IndexError` (`contents[0]` at
line 2196 and `visible_contents[0]` at line 2322): the indexing is not
guarded for regions. -/
theorem C6_counterexample :
    DockRegion.recalc_sizes [] 0 0 100 100 0 24 = none ∧
    DockRegion.draw [] 0 none true = none :=
  ⟨rfl, rfl⟩

/-- C6 (amended): operations of a Section on an empty contents list are
guarded before indexing — `recalc_sizes` takes the fixed path (the
section is not resizable) and assigns nothing, and `draw` only fills the
background and never fails — but the corresponding Region operations are
NOT guarded: `DockRegion.recalc_sizes` and `DockRegion.draw` index the
first visible child unconditionally in drag-bar mode and raise
`IndexError` when the region has no visible children. -/
theorem C6_empty_group_guards :
    (∀ x y dx dy lt s : Int,
      DockRegion.recalc_sizes [] x y dx dy lt s = none) ∧
    (∀ (act : Int) (ts : Bool), DockRegion.draw [] act none ts = none) ∧
    (∀ x y dx dy : Int,
      DockSection.recalc_sizes_fixed_row [] x y dx dy = [] ∧
      DockSection.recalc_sizes_fixed_col [] x y dx dy = []) ∧
    (∀ (vf : Option Bool) (n : Nat) (r : Bool),
      (DockSection.draw vf n r).isSome = true) := by
  refine ⟨fun x y dx dy lt s => rfl, fun act ts => rfl,
    fun x y dx dy => ⟨rfl, rfl⟩, fun vf n r => ?_⟩
  rw [DockSection.draw]
  split <;> rfl

mutual

theorem region_items_ok :
    ∀ xs, (set_region_items xs).isSome = okRegionItems xs
  | [] => rfl
  | v :: vs => by
      rw [set_region_items, okRegionItems, ← region_item_ok v,
        ← region_items_ok vs]
      rcases set_region_item v with _ | t <;>
        rcases set_region_items vs with _ | ts <;> rfl

theorem region_item_ok :
    ∀ v, (set_region_item v).isSome = okRegionItem v
  | .tup xs => by
      rw [set_region_item, okRegionItem, ← region_items_ok xs]
      rcases set_region_items xs with _ | ts <;> rfl
  | .lst xs => by
      rw [set_region_item, okRegionItem, ← section_items_ok xs true]
      rcases set_section_items xs true with _ | ts <;> rfl
  | .control => rfl
  | .region => rfl
  | .sect => rfl
  | .splitter => rfl
  | .other => rfl

theorem section_items_ok :
    ∀ xs r, (set_section_items xs r).isSome = okSectionItems xs
  | [], _ => rfl
  | v :: vs, r => by
      rw [set_section_items, okSectionItems, ← section_item_ok v r,
        ← section_items_ok vs r]
      rcases set_section_item v r with _ | t <;>
        rcases set_section_items vs r with _ | ts <;> rfl

theorem section_item_ok :
    ∀ v r, (set_section_item v r).isSome = okSectionItem v
  | .tup xs, r => by
      rw [set_section_item, okSectionItem, ← region_items_ok xs]
      rcases set_region_items xs with _ | ts <;> rfl
  | .lst xs, r => by
      rw [set_section_item, okSectionItem, ← section_items_ok xs (!r)]
      rcases set_section_items xs (!r) with _ | ts <;> rfl
  | .control, _ => rfl
  | .region, _ => rfl
  | .sect, _ => rfl
  | .splitter, _ => rfl
  | .other, _ => rfl

end

/-- C9 counterexample: a list containing a `DockSection` — a supported
shape by the claim's reading (`DockGroup` nested in a list) — raises
`TypeError`, while a `DockSplitter` inside a tuple — not one of the
claim's supported shapes — is accepted without raising. -/
theorem C9_counterexample :
    DockSizer.SetContents (.lst [.sect]) = none ∧
    (DockSizer.SetContents (.tup [.splitter])).isSome = true :=
  ⟨rfl, rfl⟩

/-- C9 (amended): `SetContents` raises `TypeError` exactly on the inputs
outside the precise acceptance grammar: at top level a `DockGroup`, a
`DockControl`, a tuple or a list; inside a tuple any `DockItem`, tuple or
list; inside a list only tuples, lists and `DockControl`s (a nested
`DockGroup` or splitter in a list raises).  Every accepted input builds a
tree without raising, and this is the single caller-visible error
path. -/
theorem C9_set_contents_type_check :
    ∀ v, (DockSizer.SetContents v).isSome = okTop v
  | .region => rfl
  | .sect => rfl
  | .control => rfl
  | .splitter => rfl
  | .other => rfl
  | .tup xs => by
      rw [DockSizer.SetContents, okTop, ← region_items_ok xs]
      rcases set_region_items xs with _ | ts <;> rfl
  | .lst xs => by
      rw [DockSizer.SetContents, okTop, ← section_items_ok xs true]
      rcases set_section_items xs true with _ | ts <;> rfl
